import Mathlib

/-!
Shallow embedding of the `y6` packet codec and world patcher of the
`asciicker-rs` library (files `src/y6/packets.rs`, `src/y6/utils.rs`,
`src/y6/bot.rs`).

Modelling conventions:
* Rust `u8`/`u16`/`u32` values are `Nat`s; byte buffers (`Vec<u8>`) are
  `List Nat`; well-formedness (`< 256`, ...) is stated as hypotheses.
* `f32` fields are carried as their 32-bit bit patterns (`Nat < 2^32`):
  the source only ever moves them with `to_ne_bytes`/`from_ne_bytes`,
  never arithmetically, so a bit-pattern model is exact.
* The platform's native byte order is a parameter `en : Endian`;
  `to_ne_bytes`/`from_ne_bytes` become `..ToBytesE en`/`..FromBytesE en`,
  while the one place the source hard-codes `from_le_bytes`
  (`RawExitBroadcast::try_from`) uses `Endian.little` explicitly.
* A Rust `CString` is modelled by its content bytes (`List Nat`);
  `from_vec_unchecked v` is `v`, `into_bytes_with_nul` is `v ++ [0]`.
* Fallible code returns `Except PacketParseError _`; code that can
  panic (out-of-bounds indexing / slicing, `unwrap`) returns `Option _`,
  with `none` standing for the panic.
-/

namespace Asciicker

/-- Native byte order of the platform the library is compiled for. -/
inductive Endian
  | little
  | big
deriving DecidableEq

/-- `u16::from_ne_bytes([b0, b1])`, parameterised by the native byte order. -/
def u16FromBytesE : Endian → Nat → Nat → Nat
  | .little, b0, b1 => b0 + 256 * b1
  | .big, b0, b1 => b1 + 256 * b0

/-- `u16::to_ne_bytes`, parameterised by the native byte order. -/
def u16ToBytesE : Endian → Nat → List Nat
  | .little, x => [x % 256, x / 256 % 256]
  | .big, x => [x / 256 % 256, x % 256]

/-- `u32::from_ne_bytes([b0, b1, b2, b3])` (used for `f32` bit patterns). -/
def u32FromBytesE : Endian → Nat → Nat → Nat → Nat → Nat
  | .little, b0, b1, b2, b3 => b0 + 256 * b1 + 65536 * b2 + 16777216 * b3
  | .big, b0, b1, b2, b3 => b3 + 256 * b2 + 65536 * b1 + 16777216 * b0

/-- `u32::to_ne_bytes` (used for `f32` bit patterns). -/
def u32ToBytesE : Endian → Nat → List Nat
  | .little, x => [x % 256, x / 256 % 256, x / 65536 % 256, x / 16777216 % 256]
  | .big, x => [x / 16777216 % 256, x / 65536 % 256, x / 256 % 256, x % 256]

/-- `PacketParseError` from `src/y6/utils.rs`.  The `Display` impl prints
`SizeMismatch(a, b)` as "expected: a, got: b". -/
inductive PacketParseError
  | SizeMismatch (a b : Nat)
  | NoNullByte (bytes : List Nat)
deriving DecidableEq

/-- `RuntimeError` from `src/y6/utils.rs`. -/
structure RuntimeError where
  what : String
deriving DecidableEq

/-- `format!("{:?}", e)` applied to a `PacketParseError`, as `patch_world`
does when wrapping a parse error into a `RuntimeError`. -/
def debugFmtParseError : PacketParseError → String
  | .SizeMismatch a b => "SizeMismatch(" ++ toString a ++ ", " ++ toString b ++ ")"
  | .NoNullByte bytes => "NoNullByte(" ++ toString bytes ++ ")"

/-- `first_nul` from `src/y6/utils.rs`: index of the first zero byte. -/
def first_nul : List Nat → Option Nat
  | [] => none
  | b :: rest => if b = 0 then some 0 else (first_nul rest).map (· + 1)

/-- `PlayerPose` (`src/y6/packets.rs`).  `position` is the `[f32; 3]` array
of bit patterns, `direction` a single `f32` bit pattern. -/
structure PlayerPose where
  animation : Nat
  frame : Nat
  action_or_mount : Nat
  position : List Nat
  direction : Nat
  sprite : Nat
deriving DecidableEq

instance : Inhabited PlayerPose := ⟨⟨0, 0, 0, [0, 0, 0], 0, 0⟩⟩

/-- `PLAYER_POSE_SIZE` = `3 * size_of::<u8>() + 4 * size_of::<f32>() +
size_of::<u16>()` = 21. -/
def PLAYER_POSE_SIZE : Nat := 3 + 16 + 2

/-- `Into<Bytes> for PlayerPose`. -/
def playerPoseToBytes (en : Endian) (p : PlayerPose) : List Nat :=
  p.animation :: p.frame :: p.action_or_mount ::
    ((p.position.map (u32ToBytesE en)).flatten ++ u32ToBytesE en p.direction
      ++ u16ToBytesE en p.sprite)

/-- `TryFrom<Bytes> for PlayerPose`.  Note the source reports
`SizeMismatch(value.len(), PLAYER_POSE_SIZE)` — actual length first. -/
def playerPoseFromBytes (en : Endian) (b : List Nat) :
    Except PacketParseError PlayerPose :=
  if b.length ≠ PLAYER_POSE_SIZE then
    .error (.SizeMismatch b.length PLAYER_POSE_SIZE)
  else
    .ok
      { animation := b.getD 0 0
        frame := b.getD 1 0
        action_or_mount := b.getD 2 0
        position :=
          [u32FromBytesE en (b.getD 3 0) (b.getD 4 0) (b.getD 5 0) (b.getD 6 0),
           u32FromBytesE en (b.getD 7 0) (b.getD 8 0) (b.getD 9 0) (b.getD 10 0),
           u32FromBytesE en (b.getD 11 0) (b.getD 12 0) (b.getD 13 0) (b.getD 14 0)]
        direction := u32FromBytesE en (b.getD 15 0) (b.getD 16 0) (b.getD 17 0) (b.getD 18 0)
        sprite := u16FromBytesE en (b.getD 19 0) (b.getD 20 0) }

-- Raw packet structs (`src/y6/packets.rs`).  Fixed-size byte-array fields
-- (`[u8; 31]`, `[u8; 32]`, `LagStamp = [u8; 3]`) and `CString` contents are
-- `List Nat`.

/-- `RawJoinRequest`: token `J` plus a 31-byte C-like name field. -/
structure RawJoinRequest where
  token : Nat
  name : List Nat
deriving DecidableEq

/-- `RawJoinResponse`: token `j`, max clients, 16-bit id. -/
structure RawJoinResponse where
  token : Nat
  max_clients : Nat
  id : Nat
deriving DecidableEq

/-- `RawJoinBroadcast`: token `j`, pose, 16-bit id, 32-byte name field. -/
structure RawJoinBroadcast where
  token : Nat
  player_pose : PlayerPose
  id : Nat
  name : List Nat
deriving DecidableEq

/-- `RawExitBroadcast`: token `e`, padding byte, 16-bit id. -/
structure RawExitBroadcast where
  token : Nat
  _padding : Nat
  id : Nat
deriving DecidableEq

/-- `RawPoseRequest`: token `P` plus a pose. -/
structure RawPoseRequest where
  token : Nat
  player_pose : PlayerPose
deriving DecidableEq

/-- `RawPoseBroadcast`: token `p`, pose, 16-bit id. -/
structure RawPoseBroadcast where
  token : Nat
  player_pose : PlayerPose
  id : Nat
deriving DecidableEq

/-- `RawTalkRequest`: token `T`, length byte, `CString` contents. -/
structure RawTalkRequest where
  token : Nat
  len : Nat
  str : List Nat
deriving DecidableEq

/-- `RawTalkBroadcast`: token `t`, length byte, 16-bit id, `CString` contents. -/
structure RawTalkBroadcast where
  token : Nat
  len : Nat
  id : Nat
  str : List Nat
deriving DecidableEq

/-- `RawLagRequest`: token `L` plus a 3-byte stamp. -/
structure RawLagRequest where
  token : Nat
  stamp : List Nat
deriving DecidableEq

/-- `RawLagResponse`: token `l` plus a 3-byte stamp. -/
structure RawLagResponse where
  token : Nat
  stamp : List Nat
deriving DecidableEq

-- Clean packet structs.

/-- Clean `JoinRequest`: just the name (`CString` contents). -/
structure JoinRequest where
  name : List Nat
deriving DecidableEq

/-- Clean `JoinResponse`. -/
structure JoinResponse where
  max_clients : Nat
  id : Nat
deriving DecidableEq

/-- Clean `JoinBroadcast`. -/
structure JoinBroadcast where
  player_pose : PlayerPose
  id : Nat
  name : List Nat
deriving DecidableEq

/-- Clean `ExitBroadcast`. -/
structure ExitBroadcast where
  id : Nat
deriving DecidableEq

/-- Clean `PoseRequest`. -/
structure PoseRequest where
  player_pose : PlayerPose
deriving DecidableEq

/-- Clean `PoseBroadcast`. -/
structure PoseBroadcast where
  player_pose : PlayerPose
  id : Nat
deriving DecidableEq

/-- Clean `TalkRequest`. -/
structure TalkRequest where
  str : List Nat
deriving DecidableEq

/-- Clean `TalkBroadcast`. -/
structure TalkBroadcast where
  id : Nat
  str : List Nat
deriving DecidableEq

/-- Clean `LagRequest`. -/
structure LagRequest where
  stamp : List Nat
deriving DecidableEq

/-- Clean `LagResponse`. -/
structure LagResponse where
  stamp : List Nat
deriving DecidableEq

-- Size constants (`src/y6/packets.rs`, computed from `size_of`).

/-- `JOIN_REQ_SIZE` = 1 + 31 = 32. -/
def JOIN_REQ_SIZE : Nat := 1 + 31

/-- `JOIN_RSP_SIZE` = 2 + 2 = 4. -/
def JOIN_RSP_SIZE : Nat := 2 + 2

/-- `JOIN_BRC_SIZE` = 4 + 16 + 4 + 32 = 56. -/
def JOIN_BRC_SIZE : Nat := 4 + 16 + 4 + 32

/-- `EXIT_BRC_SIZE` = 2 + 2 = 4. -/
def EXIT_BRC_SIZE : Nat := 2 + 2

/-- `POSE_REQ_SIZE` = 4 + 16 + 2 = 22. -/
def POSE_REQ_SIZE : Nat := 4 + 16 + 2

/-- `POSE_BRC_SIZE` = 4 + 16 + 4 = 24. -/
def POSE_BRC_SIZE : Nat := 4 + 16 + 4

/-- `LAG_REQ_SIZE` = 4. -/
def LAG_REQ_SIZE : Nat := 4

/-- `LAG_RSP_SIZE` = 4. -/
def LAG_RSP_SIZE : Nat := 4

-- Bytes → raw packet decoders (`TryFrom<Bytes>` impls).

/-- `TryFrom<Bytes> for RawJoinRequest`. -/
def rawJoinRequestFromBytes (b : List Nat) :
    Except PacketParseError RawJoinRequest :=
  if b.length ≠ JOIN_REQ_SIZE then
    .error (.SizeMismatch JOIN_REQ_SIZE b.length)
  else
    .ok { token := b.getD 0 0, name := (b.drop 1).take 31 }

/-- `TryFrom<Bytes> for RawJoinResponse`. -/
def rawJoinResponseFromBytes (en : Endian) (b : List Nat) :
    Except PacketParseError RawJoinResponse :=
  if b.length ≠ JOIN_RSP_SIZE then
    .error (.SizeMismatch JOIN_RSP_SIZE b.length)
  else
    .ok
      { token := b.getD 0 0
        max_clients := b.getD 1 0
        id := u16FromBytesE en (b.getD 2 0) (b.getD 3 0) }

/-- `TryFrom<Bytes> for RawJoinBroadcast`: pose bytes at offsets 1–19,
id at 20–21, sprite at 22–23, name at 24–55. -/
def rawJoinBroadcastFromBytes (en : Endian) (b : List Nat) :
    Except PacketParseError RawJoinBroadcast :=
  if b.length ≠ JOIN_BRC_SIZE then
    .error (.SizeMismatch JOIN_BRC_SIZE b.length)
  else
    .ok
      { token := b.getD 0 0
        player_pose :=
          { animation := b.getD 1 0
            frame := b.getD 2 0
            action_or_mount := b.getD 3 0
            position :=
              [u32FromBytesE en (b.getD 4 0) (b.getD 5 0) (b.getD 6 0) (b.getD 7 0),
               u32FromBytesE en (b.getD 8 0) (b.getD 9 0) (b.getD 10 0) (b.getD 11 0),
               u32FromBytesE en (b.getD 12 0) (b.getD 13 0) (b.getD 14 0) (b.getD 15 0)]
            direction := u32FromBytesE en (b.getD 16 0) (b.getD 17 0) (b.getD 18 0) (b.getD 19 0)
            sprite := u16FromBytesE en (b.getD 22 0) (b.getD 23 0) }
        id := u16FromBytesE en (b.getD 20 0) (b.getD 21 0)
        name := (b.drop 24).take 32 }

/-- `TryFrom<Bytes> for RawExitBroadcast`.  The id is read with
`u16::from_le_bytes` — hard-coded little-endian, unlike every other decoder. -/
def rawExitBroadcastFromBytes (b : List Nat) :
    Except PacketParseError RawExitBroadcast :=
  if b.length ≠ EXIT_BRC_SIZE then
    .error (.SizeMismatch EXIT_BRC_SIZE b.length)
  else
    .ok
      { token := b.getD 0 0
        _padding := b.getD 1 0
        id := u16FromBytesE .little (b.getD 2 0) (b.getD 3 0) }

/-- `TryFrom<Bytes> for RawPoseRequest`: pose parsed from `value[1..=21]`. -/
def rawPoseRequestFromBytes (en : Endian) (b : List Nat) :
    Except PacketParseError RawPoseRequest :=
  if b.length ≠ POSE_REQ_SIZE then
    .error (.SizeMismatch POSE_REQ_SIZE b.length)
  else
    match playerPoseFromBytes en ((b.drop 1).take 21) with
    | .error e => .error e
    | .ok p => .ok { token := b.getD 0 0, player_pose := p }

/-- `TryFrom<Bytes> for RawPoseBroadcast`: pose from `value[1..=21]`,
id at offsets 22–23. -/
def rawPoseBroadcastFromBytes (en : Endian) (b : List Nat) :
    Except PacketParseError RawPoseBroadcast :=
  if b.length ≠ POSE_BRC_SIZE then
    .error (.SizeMismatch POSE_BRC_SIZE b.length)
  else
    match playerPoseFromBytes en ((b.drop 1).take 21) with
    | .error e => .error e
    | .ok p =>
      .ok
        { token := b.getD 0 0
          player_pose := p
          id := u16FromBytesE en (b.getD 22 0) (b.getD 23 0) }

/-- `TryFrom<Bytes> for RawTalkRequest`.  The source first slices
`&value[2..]` (panics when the buffer is shorter than 2), looks for the
first zero byte there, then takes `value[2..len]` where `len` is the
*absolute-looking* index returned for the tail — panicking when it is
below 2, and otherwise keeping bytes 2..len of the whole buffer.
`none` models the panics. -/
def rawTalkRequestFromBytes (b : List Nat) :
    Option (Except PacketParseError RawTalkRequest) :=
  if b.length < 2 then none
  else
    match first_nul (b.drop 2) with
    | none => some (.error (.NoNullByte (b.drop 2)))
    | some l =>
      if l < 2 then none
      else some (.ok { token := b.getD 0 0, len := b.getD 1 0, str := (b.take l).drop 2 })

/-- `TryFrom<Bytes> for RawTalkBroadcast`.  No length or terminator check:
bytes 0–3 are indexed unconditionally (panic — `none` — when fewer than 4
bytes) and the *entire* tail from offset 4 becomes the `CString` contents. -/
def rawTalkBroadcastFromBytes (en : Endian) (b : List Nat) :
    Option (Except PacketParseError RawTalkBroadcast) :=
  if b.length < 4 then none
  else
    some (.ok
      { token := b.getD 0 0
        len := b.getD 1 0
        id := u16FromBytesE en (b.getD 2 0) (b.getD 3 0)
        str := b.drop 4 })

/-- `TryFrom<Bytes> for RawLagRequest`. -/
def rawLagRequestFromBytes (b : List Nat) :
    Except PacketParseError RawLagRequest :=
  if b.length ≠ LAG_REQ_SIZE then
    .error (.SizeMismatch LAG_REQ_SIZE b.length)
  else
    .ok { token := b.getD 0 0, stamp := [b.getD 1 0, b.getD 2 0, b.getD 3 0] }

/-- `TryFrom<Bytes> for RawLagResponse`. -/
def rawLagResponseFromBytes (b : List Nat) :
    Except PacketParseError RawLagResponse :=
  if b.length ≠ LAG_RSP_SIZE then
    .error (.SizeMismatch LAG_RSP_SIZE b.length)
  else
    .ok { token := b.getD 0 0, stamp := [b.getD 1 0, b.getD 2 0, b.getD 3 0] }

-- Raw packet → bytes encoders (`Into<Bytes>` impls).

/-- `Into<Bytes> for RawJoinRequest`. -/
def rawJoinRequestToBytes (r : RawJoinRequest) : List Nat :=
  r.token :: r.name

/-- `Into<Bytes> for RawJoinResponse`. -/
def rawJoinResponseToBytes (en : Endian) (r : RawJoinResponse) : List Nat :=
  r.token :: r.max_clients :: u16ToBytesE en r.id

/-- `Into<Bytes> for RawJoinBroadcast`: token, pose bytes
(minus sprite), id, sprite, name — in that order. -/
def rawJoinBroadcastToBytes (en : Endian) (r : RawJoinBroadcast) : List Nat :=
  r.token :: r.player_pose.animation :: r.player_pose.frame ::
    r.player_pose.action_or_mount ::
    ((r.player_pose.position.map (u32ToBytesE en)).flatten
      ++ u32ToBytesE en r.player_pose.direction
      ++ u16ToBytesE en r.id
      ++ u16ToBytesE en r.player_pose.sprite
      ++ r.name)

/-- `Into<Bytes> for RawExitBroadcast`.  Note: the padding byte written is
the literal `0`, not `self._padding`; the id is written with `to_ne_bytes`. -/
def rawExitBroadcastToBytes (en : Endian) (r : RawExitBroadcast) : List Nat :=
  r.token :: 0 :: u16ToBytesE en r.id

/-- `Into<Bytes> for RawPoseRequest`. -/
def rawPoseRequestToBytes (en : Endian) (r : RawPoseRequest) : List Nat :=
  r.token :: r.player_pose.animation :: r.player_pose.frame ::
    r.player_pose.action_or_mount ::
    ((r.player_pose.position.map (u32ToBytesE en)).flatten
      ++ u32ToBytesE en r.player_pose.direction
      ++ u16ToBytesE en r.player_pose.sprite)

/-- `Into<Bytes> for RawPoseBroadcast`. -/
def rawPoseBroadcastToBytes (en : Endian) (r : RawPoseBroadcast) : List Nat :=
  r.token :: r.player_pose.animation :: r.player_pose.frame ::
    r.player_pose.action_or_mount ::
    ((r.player_pose.position.map (u32ToBytesE en)).flatten
      ++ u32ToBytesE en r.player_pose.direction
      ++ u16ToBytesE en r.player_pose.sprite
      ++ u16ToBytesE en r.id)

/-- `Into<Bytes> for RawTalkRequest`: token, length byte, string contents,
terminating zero (`into_bytes_with_nul`) plus one extra padding zero. -/
def rawTalkRequestToBytes (r : RawTalkRequest) : List Nat :=
  r.token :: r.len :: (r.str ++ [0] ++ [0])

/-- `Into<Bytes> for RawTalkBroadcast`. -/
def rawTalkBroadcastToBytes (en : Endian) (r : RawTalkBroadcast) : List Nat :=
  r.token :: r.len :: (u16ToBytesE en r.id ++ (r.str ++ [0] ++ [0]))

/-- `Into<Bytes> for RawLagRequest`. -/
def rawLagRequestToBytes (r : RawLagRequest) : List Nat :=
  r.token :: r.stamp

/-- `Into<Bytes> for RawLagResponse`. -/
def rawLagResponseToBytes (r : RawLagResponse) : List Nat :=
  r.token :: r.stamp

-- Raw → clean conversions (`From<RawX> for X` impls).

/-- `From<RawJoinRequest> for JoinRequest`.  The source slices
`cstr[0..first_nul(&cstr).unwrap_or(32)]` on the **31**-byte name field:
when the field holds no zero byte the range end 32 is out of bounds and
the conversion panics (`none`). -/
def joinRequestFromRaw (r : RawJoinRequest) : Option JoinRequest :=
  let l := (first_nul r.name).getD 32
  if l ≤ r.name.length then some { name := r.name.take l } else none

/-- `From<RawJoinResponse> for JoinResponse`. -/
def joinResponseFromRaw (r : RawJoinResponse) : JoinResponse :=
  { max_clients := r.max_clients, id := r.id }

/-- `From<RawJoinBroadcast> for JoinBroadcast`.  Same
`[0..unwrap_or(32)]` slice, but on the 32-byte name field, where the
fallback end 32 is in bounds. -/
def joinBroadcastFromRaw (r : RawJoinBroadcast) : Option JoinBroadcast :=
  let l := (first_nul r.name).getD 32
  if l ≤ r.name.length then
    some { player_pose := r.player_pose, id := r.id, name := r.name.take l }
  else none

/-- `From<RawExitBroadcast> for ExitBroadcast`. -/
def exitBroadcastFromRaw (r : RawExitBroadcast) : ExitBroadcast :=
  { id := r.id }

/-- `From<RawPoseRequest> for PoseRequest`. -/
def poseRequestFromRaw (r : RawPoseRequest) : PoseRequest :=
  { player_pose := r.player_pose }

/-- `From<RawPoseBroadcast> for PoseBroadcast`. -/
def poseBroadcastFromRaw (r : RawPoseBroadcast) : PoseBroadcast :=
  { player_pose := r.player_pose, id := r.id }

/-- `From<RawTalkRequest> for TalkRequest`. -/
def talkRequestFromRaw (r : RawTalkRequest) : TalkRequest :=
  { str := r.str }

/-- `From<RawTalkBroadcast> for TalkBroadcast`. -/
def talkBroadcastFromRaw (r : RawTalkBroadcast) : TalkBroadcast :=
  { id := r.id, str := r.str }

/-- `From<RawLagRequest> for LagRequest`. -/
def lagRequestFromRaw (r : RawLagRequest) : LagRequest :=
  { stamp := r.stamp }

/-- `From<RawLagResponse> for LagResponse`. -/
def lagResponseFromRaw (r : RawLagResponse) : LagResponse :=
  { stamp := r.stamp }

-- Clean → raw conversions (`Into<RawX>` impls).

/-- `Into<RawJoinRequest> for JoinRequest`: the name bytes are copied into
a zeroed 31-byte array by index; a name longer than 31 bytes hits an
out-of-bounds write (panic, `none`). -/
def joinRequestToRaw (c : JoinRequest) : Option RawJoinRequest :=
  if c.name.length ≤ 31 then
    some { token := 74, name := c.name ++ List.replicate (31 - c.name.length) 0 }
  else none

/-- `Into<RawJoinResponse> for JoinResponse`. -/
def joinResponseToRaw (c : JoinResponse) : RawJoinResponse :=
  { token := 106, max_clients := c.max_clients, id := c.id }

/-- `Into<RawJoinBroadcast> for JoinBroadcast`: name copied into a zeroed
32-byte array; longer names panic (`none`). -/
def joinBroadcastToRaw (c : JoinBroadcast) : Option RawJoinBroadcast :=
  if c.name.length ≤ 32 then
    some
      { token := 106
        player_pose := c.player_pose
        id := c.id
        name := c.name ++ List.replicate (32 - c.name.length) 0 }
  else none

/-- `Into<RawExitBroadcast> for ExitBroadcast`. -/
def exitBroadcastToRaw (c : ExitBroadcast) : RawExitBroadcast :=
  { token := 101, _padding := 0, id := c.id }

/-- `Into<RawPoseRequest> for PoseRequest`. -/
def poseRequestToRaw (c : PoseRequest) : RawPoseRequest :=
  { token := 80, player_pose := c.player_pose }

/-- `Into<RawPoseBroadcast> for PoseBroadcast`. -/
def poseBroadcastToRaw (c : PoseBroadcast) : RawPoseBroadcast :=
  { token := 112, player_pose := c.player_pose, id := c.id }

/-- `Into<RawTalkRequest> for TalkRequest`: `len` is
`bytes.len() as u8`, i.e. the length modulo 256. -/
def talkRequestToRaw (c : TalkRequest) : RawTalkRequest :=
  { token := 84, len := c.str.length % 256, str := c.str }

/-- `Into<RawTalkBroadcast> for TalkBroadcast`. -/
def talkBroadcastToRaw (c : TalkBroadcast) : RawTalkBroadcast :=
  { token := 116, len := c.str.length % 256, id := c.id, str := c.str }

/-- `Into<RawLagRequest> for LagRequest`. -/
def lagRequestToRaw (c : LagRequest) : RawLagRequest :=
  { token := 76, stamp := c.stamp }

/-- `Into<RawLagResponse> for LagResponse`. -/
def lagResponseToRaw (c : LagResponse) : RawLagResponse :=
  { token := 108, stamp := c.stamp }

-- Clean ↔ bytes composites (the `impl_from_bytes_for_clean` /
-- `impl_into_bytes_for_clean` macro expansions: bytes → raw → clean and
-- clean → raw → bytes).

/-- `TryFrom<Bytes> for JoinRequest` (macro expansion); the raw → clean
step can panic, hence the outer `Option`. -/
def cleanJoinRequestFromBytes (b : List Nat) :
    Option (Except PacketParseError JoinRequest) :=
  match rawJoinRequestFromBytes b with
  | .error e => some (.error e)
  | .ok r => (joinRequestFromRaw r).map .ok

/-- `TryFrom<Bytes> for JoinResponse` (macro expansion). -/
def cleanJoinResponseFromBytes (en : Endian) (b : List Nat) :
    Except PacketParseError JoinResponse :=
  match rawJoinResponseFromBytes en b with
  | .error e => .error e
  | .ok r => .ok (joinResponseFromRaw r)

/-- `TryFrom<Bytes> for JoinBroadcast` (macro expansion). -/
def cleanJoinBroadcastFromBytes (en : Endian) (b : List Nat) :
    Option (Except PacketParseError JoinBroadcast) :=
  match rawJoinBroadcastFromBytes en b with
  | .error e => some (.error e)
  | .ok r => (joinBroadcastFromRaw r).map .ok

/-- `TryFrom<Bytes> for ExitBroadcast` (macro expansion). -/
def cleanExitBroadcastFromBytes (b : List Nat) :
    Except PacketParseError ExitBroadcast :=
  match rawExitBroadcastFromBytes b with
  | .error e => .error e
  | .ok r => .ok (exitBroadcastFromRaw r)

/-- `TryFrom<Bytes> for PoseRequest` (macro expansion). -/
def cleanPoseRequestFromBytes (en : Endian) (b : List Nat) :
    Except PacketParseError PoseRequest :=
  match rawPoseRequestFromBytes en b with
  | .error e => .error e
  | .ok r => .ok (poseRequestFromRaw r)

/-- `TryFrom<Bytes> for PoseBroadcast` (macro expansion). -/
def cleanPoseBroadcastFromBytes (en : Endian) (b : List Nat) :
    Except PacketParseError PoseBroadcast :=
  match rawPoseBroadcastFromBytes en b with
  | .error e => .error e
  | .ok r => .ok (poseBroadcastFromRaw r)

/-- `TryFrom<Bytes> for TalkRequest` (macro expansion); the raw decoder can
panic, hence the outer `Option`. -/
def cleanTalkRequestFromBytes (b : List Nat) :
    Option (Except PacketParseError TalkRequest) :=
  match rawTalkRequestFromBytes b with
  | none => none
  | some (.error e) => some (.error e)
  | some (.ok r) => some (.ok (talkRequestFromRaw r))

/-- `TryFrom<Bytes> for TalkBroadcast` (macro expansion). -/
def cleanTalkBroadcastFromBytes (en : Endian) (b : List Nat) :
    Option (Except PacketParseError TalkBroadcast) :=
  match rawTalkBroadcastFromBytes en b with
  | none => none
  | some (.error e) => some (.error e)
  | some (.ok r) => some (.ok (talkBroadcastFromRaw r))

/-- `TryFrom<Bytes> for LagRequest` (macro expansion). -/
def cleanLagRequestFromBytes (b : List Nat) :
    Except PacketParseError LagRequest :=
  match rawLagRequestFromBytes b with
  | .error e => .error e
  | .ok r => .ok (lagRequestFromRaw r)

/-- `TryFrom<Bytes> for LagResponse` (macro expansion). -/
def cleanLagResponseFromBytes (b : List Nat) :
    Except PacketParseError LagResponse :=
  match rawLagResponseFromBytes b with
  | .error e => .error e
  | .ok r => .ok (lagResponseFromRaw r)

/-- `Into<Bytes> for JoinRequest` (macro expansion); `none` = panic on an
over-length name. -/
def cleanJoinRequestToBytes (c : JoinRequest) : Option (List Nat) :=
  (joinRequestToRaw c).map rawJoinRequestToBytes

/-- `Into<Bytes> for JoinResponse` (macro expansion). -/
def cleanJoinResponseToBytes (en : Endian) (c : JoinResponse) : List Nat :=
  rawJoinResponseToBytes en (joinResponseToRaw c)

/-- `Into<Bytes> for JoinBroadcast` (macro expansion). -/
def cleanJoinBroadcastToBytes (en : Endian) (c : JoinBroadcast) : Option (List Nat) :=
  (joinBroadcastToRaw c).map (rawJoinBroadcastToBytes en)

/-- `Into<Bytes> for ExitBroadcast` (macro expansion). -/
def cleanExitBroadcastToBytes (en : Endian) (c : ExitBroadcast) : List Nat :=
  rawExitBroadcastToBytes en (exitBroadcastToRaw c)

/-- `Into<Bytes> for PoseRequest` (macro expansion). -/
def cleanPoseRequestToBytes (en : Endian) (c : PoseRequest) : List Nat :=
  rawPoseRequestToBytes en (poseRequestToRaw c)

/-- `Into<Bytes> for PoseBroadcast` (macro expansion). -/
def cleanPoseBroadcastToBytes (en : Endian) (c : PoseBroadcast) : List Nat :=
  rawPoseBroadcastToBytes en (poseBroadcastToRaw c)

/-- `Into<Bytes> for TalkRequest` (macro expansion). -/
def cleanTalkRequestToBytes (c : TalkRequest) : List Nat :=
  rawTalkRequestToBytes (talkRequestToRaw c)

/-- `Into<Bytes> for TalkBroadcast` (macro expansion). -/
def cleanTalkBroadcastToBytes (en : Endian) (c : TalkBroadcast) : List Nat :=
  rawTalkBroadcastToBytes en (talkBroadcastToRaw c)

/-- `Into<Bytes> for LagRequest` (macro expansion). -/
def cleanLagRequestToBytes (c : LagRequest) : List Nat :=
  rawLagRequestToBytes (lagRequestToRaw c)

/-- `Into<Bytes> for LagResponse` (macro expansion). -/
def cleanLagResponseToBytes (c : LagResponse) : List Nat :=
  rawLagResponseToBytes (lagResponseToRaw c)

-- Bot runtime data model (`src/y6/bot.rs`).

/-- `Player`: an asciicker participant.  The nickname is the byte content
of the processed (`to_string_lossy`, optionally nul-stripped) string. -/
structure Player where
  nickname : List Nat
  pose : PlayerPose
  id : Nat
deriving DecidableEq

/-- `Message`: a chat log entry; `when` is the `Instant` receipt stamp,
modelled as an opaque `Nat` supplied by the caller of `patchWorld`. -/
structure Message where
  content : List Nat
  author : Nat
  when : Nat
deriving DecidableEq

/-- `World`: shared session state. -/
structure World where
  max_clients : Nat
  clients : List Player
  messages : List Message
  lag : List Nat
deriving DecidableEq

/-- Result type of callbacks and of `patch_world` (`BotResult`). -/
abbrev BotResult := Except RuntimeError Unit

/-- `Iterator::position`: index of the first element satisfying the
predicate. -/
def positionIdx (p : Player → Bool) : List Player → Option Nat
  | [] => none
  | c :: rest => if p c then some 0 else (positionIdx p rest).map (· + 1)

/-- `iter().position(|c| c.id == id)` over the client list. -/
def findClientIdx (clients : List Player) (i : Nat) : Option Nat :=
  positionIdx (fun c => c.id = i) clients

/-- `Vec::remove(idx)` on the client list. -/
def removeClient (clients : List Player) (idx : Nat) : List Player :=
  clients.eraseIdx idx

/-- `iter_mut().find(|c| c.id == id)` followed by a pose overwrite:
updates the first client with the given id, leaves the rest unchanged. -/
def updateFirstPose (clients : List Player) (i : Nat) (p : PlayerPose) :
    List Player :=
  match clients with
  | [] => []
  | c :: rest =>
    if c.id = i then { c with pose := p } :: rest
    else c :: updateFirstPose rest i p

/-- Nickname / message-content post-processing in `patch_world`:
`to_string_lossy()` is an opaque caller-supplied function `lossy` on the
byte content; with `replace_invalid_utf8` set, `replace('\u{0}', "")`
drops the zero bytes of the (valid-UTF-8) result. -/
def processText (lossy : List Nat → List Nat) (replaceInvalidUtf8 : Bool)
    (s : List Nat) : List Nat :=
  if replaceInvalidUtf8 then (lossy s).filter (fun x => x ≠ 0) else lossy s

/-- `patch_world` (`src/y6/bot.rs`).  Callbacks are modelled as pure
functions from the decoded broadcast to a `BotResult` (the source only
inspects their result; the shared handles they receive are untouched by
`patch_world` itself).  `now` is the `Instant::now()` value used for a
talk message.  Returns `none` for a panic (empty frame, short `'t'`
frame, or exit broadcast for an unknown id), otherwise the `BotResult`
together with the final world and bot player. -/
def patchWorld (en : Endian) (lossy : List Nat → List Nat) (now : Nat)
    (cbJoin : JoinBroadcast → BotResult) (cbExit : ExitBroadcast → BotResult)
    (cbPose : PoseBroadcast → BotResult) (cbTalk : TalkBroadcast → BotResult)
    (data : List Nat) (world : World) (bot : Player)
    (replaceInvalidUtf8 : Bool) : Option (BotResult × World × Player) :=
  match data with
  | [] => none
  | d0 :: _ =>
    if d0 = 106 then
      match cleanJoinBroadcastFromBytes en data with
      | none => none
      | some (.error e) =>
        some (.error ⟨debugFmtParseError e⟩, world, bot)
      | some (.ok join_brc) =>
        match cbJoin join_brc with
        | .error e => some (.error e, world, bot)
        | .ok _ =>
          let nickname := processText lossy replaceInvalidUtf8 join_brc.name
          some (.ok (),
            { world with
                clients := world.clients ++
                  [{ nickname := nickname
                     pose := join_brc.player_pose
                     id := join_brc.id }] },
            bot)
    else if d0 = 101 then
      match cleanExitBroadcastFromBytes data with
      | .error e => some (.error ⟨debugFmtParseError e⟩, world, bot)
      | .ok exit_brc =>
        match cbExit exit_brc with
        | .error e => some (.error e, world, bot)
        | .ok _ =>
          match findClientIdx world.clients exit_brc.id with
          | none => none
          | some idx =>
            some (.ok (), { world with clients := removeClient world.clients idx }, bot)
    else if d0 = 112 then
      match cleanPoseBroadcastFromBytes en data with
      | .error e => some (.error ⟨debugFmtParseError e⟩, world, bot)
      | .ok pose_brc =>
        match cbPose pose_brc with
        | .error e => some (.error e, world, bot)
        | .ok _ =>
          match findClientIdx world.clients pose_brc.id with
          | none => some (.ok (), world, bot)
          | some _ =>
            some (.ok (),
              { world with
                  clients := updateFirstPose world.clients pose_brc.id
                    pose_brc.player_pose },
              bot)
    else if d0 = 116 then
      match cleanTalkBroadcastFromBytes en data with
      | none => none
      | some (.error e) => some (.error ⟨debugFmtParseError e⟩, world, bot)
      | some (.ok talk_brc) =>
        match cbTalk talk_brc with
        | .error e => some (.error e, world, bot)
        | .ok _ =>
          let content := processText lossy replaceInvalidUtf8 talk_brc.str
          some (.ok (),
            { world with
                messages := world.messages ++
                  [{ content := content, author := talk_brc.id, when := now }] },
            bot)
    else
      some (.ok (), world, bot)

-- Helper lemmas.

/-- An in-bounds `getD` of a byte buffer is a byte. -/
lemma getD_lt_of_forall (b : List Nat) (hb : ∀ x ∈ b, x < 256) (i : Nat)
    (h : i < b.length) : b.getD i 0 < 256 := by
  rw [List.getD_eq_getElem _ _ h]
  exact hb _ (List.getElem_mem h)

/-- Peel one indexed element off a `drop`. -/
lemma drop_getD (b : List Nat) (i : Nat) (h : i < b.length) :
    b.drop i = b.getD i 0 :: b.drop (i + 1) := by
  rw [List.drop_eq_getElem_cons h, List.getD_eq_getElem _ _ h]

/-- `u16` byte-level round trip, either byte order. -/
lemma u16_bytes_round (en : Endian) (b0 b1 : Nat) (h0 : b0 < 256)
    (h1 : b1 < 256) : u16ToBytesE en (u16FromBytesE en b0 b1) = [b0, b1] := by
  cases en <;> simp [u16ToBytesE, u16FromBytesE] <;> omega

/-- `u32` byte-level round trip, either byte order. -/
lemma u32_bytes_round (en : Endian) (b0 b1 b2 b3 : Nat) (h0 : b0 < 256)
    (h1 : b1 < 256) (h2 : b2 < 256) (h3 : b3 < 256) :
    u32ToBytesE en (u32FromBytesE en b0 b1 b2 b3) = [b0, b1, b2, b3] := by
  cases en <;> simp [u32ToBytesE, u32FromBytesE] <;> omega

/-- Encode-after-decode for `PlayerPose`: any 21-byte buffer is
reproduced exactly. -/
theorem playerPose_round (en : Endian) (b : List Nat)
    (hlen : b.length = PLAYER_POSE_SIZE) (hb : ∀ x ∈ b, x < 256) :
    (playerPoseFromBytes en b).map (playerPoseToBytes en) = .ok b := by
  have hlt : ∀ i, i < 21 → b.getD i 0 < 256 := fun i hi =>
    getD_lt_of_forall b hb i (by simp [PLAYER_POSE_SIZE] at hlen; omega)
  have hsz : b.length = 21 := by simpa [PLAYER_POSE_SIZE] using hlen
  simp only [playerPoseFromBytes]
  rw [if_neg (by simp [hsz, PLAYER_POSE_SIZE])]
  simp only [Except.map, playerPoseToBytes, List.map_cons, List.map_nil,
    List.flatten_cons, List.flatten_nil, List.append_nil]
  rw [u32_bytes_round en _ _ _ _ (hlt 3 (by omega)) (hlt 4 (by omega))
      (hlt 5 (by omega)) (hlt 6 (by omega)),
    u32_bytes_round en _ _ _ _ (hlt 7 (by omega)) (hlt 8 (by omega))
      (hlt 9 (by omega)) (hlt 10 (by omega)),
    u32_bytes_round en _ _ _ _ (hlt 11 (by omega)) (hlt 12 (by omega))
      (hlt 13 (by omega)) (hlt 14 (by omega)),
    u32_bytes_round en _ _ _ _ (hlt 15 (by omega)) (hlt 16 (by omega))
      (hlt 17 (by omega)) (hlt 18 (by omega)),
    u16_bytes_round en _ _ (hlt 19 (by omega)) (hlt 20 (by omega))]
  have htail : b.drop 21 = [] := by
    simp [List.drop_eq_nil_iff, hsz]
  simp only [List.cons_append, List.nil_append, Except.ok.injEq]
  rw [show ([] : List Nat) = b.drop 21 from htail.symm]
  rw [← drop_getD b 20 (by omega), ← drop_getD b 19 (by omega),
    ← drop_getD b 18 (by omega), ← drop_getD b 17 (by omega),
    ← drop_getD b 16 (by omega), ← drop_getD b 15 (by omega),
    ← drop_getD b 14 (by omega), ← drop_getD b 13 (by omega),
    ← drop_getD b 12 (by omega), ← drop_getD b 11 (by omega),
    ← drop_getD b 10 (by omega), ← drop_getD b 9 (by omega),
    ← drop_getD b 8 (by omega), ← drop_getD b 7 (by omega),
    ← drop_getD b 6 (by omega), ← drop_getD b 5 (by omega),
    ← drop_getD b 4 (by omega), ← drop_getD b 3 (by omega),
    ← drop_getD b 2 (by omega), ← drop_getD b 1 (by omega),
    ← drop_getD b 0 (by omega)]
  exact List.drop_zero b

/-- Encode-after-decode for `RawJoinRequest`: any 32-byte buffer is
reproduced exactly (token and raw name field are both kept). -/
theorem rawJoinRequest_round (b : List Nat) (hlen : b.length = JOIN_REQ_SIZE) :
    (rawJoinRequestFromBytes b).map rawJoinRequestToBytes = .ok b := by
  have hsz : b.length = 32 := by simpa [JOIN_REQ_SIZE] using hlen
  simp only [rawJoinRequestFromBytes]
  rw [if_neg (by simp [hsz, JOIN_REQ_SIZE])]
  simp only [Except.map, rawJoinRequestToBytes]
  rw [List.take_of_length_le (by simp [hsz]), ← drop_getD b 0 (by omega)]
  exact congrArg Except.ok (List.drop_zero b)

/-- Encode-after-decode for `RawJoinResponse`: any 4-byte buffer of bytes
is reproduced exactly. -/
theorem rawJoinResponse_round (en : Endian) (b : List Nat)
    (hlen : b.length = JOIN_RSP_SIZE) (hb : ∀ x ∈ b, x < 256) :
    (rawJoinResponseFromBytes en b).map (rawJoinResponseToBytes en) = .ok b := by
  have hsz : b.length = 4 := by simpa [JOIN_RSP_SIZE] using hlen
  have hlt : ∀ i, i < 4 → b.getD i 0 < 256 := fun i hi =>
    getD_lt_of_forall b hb i (by omega)
  simp only [rawJoinResponseFromBytes]
  rw [if_neg (by simp [hsz, JOIN_RSP_SIZE])]
  simp only [Except.map, rawJoinResponseToBytes]
  rw [u16_bytes_round en _ _ (hlt 2 (by omega)) (hlt 3 (by omega))]
  have htail : b.drop 4 = [] := by simp [List.drop_eq_nil_iff, hsz]
  rw [show ([b.getD 2 0, b.getD 3 0] : List Nat) =
      b.getD 2 0 :: b.getD 3 0 :: b.drop 4 by rw [htail]]
  rw [← drop_getD b 3 (by omega), ← drop_getD b 2 (by omega),
    ← drop_getD b 1 (by omega), ← drop_getD b 0 (by omega)]
  exact congrArg Except.ok (List.drop_zero b)

/-- Encode-after-decode for `RawExitBroadcast` — only on a little-endian
platform and only when the padding byte is zero, because the decoder
reads the id little-endian while the encoder writes it native-endian,
and the encoder writes a literal `0` where the padding byte was. -/
theorem rawExitBroadcast_round (b : List Nat) (hlen : b.length = EXIT_BRC_SIZE)
    (hb : ∀ x ∈ b, x < 256) (hpad : b.getD 1 0 = 0) :
    (rawExitBroadcastFromBytes b).map (rawExitBroadcastToBytes .little) = .ok b := by
  have hsz : b.length = 4 := by simpa [EXIT_BRC_SIZE] using hlen
  have hlt : ∀ i, i < 4 → b.getD i 0 < 256 := fun i hi =>
    getD_lt_of_forall b hb i (by omega)
  simp only [rawExitBroadcastFromBytes]
  rw [if_neg (by simp [hsz, EXIT_BRC_SIZE])]
  simp only [Except.map, rawExitBroadcastToBytes]
  rw [u16_bytes_round .little _ _ (hlt 2 (by omega)) (hlt 3 (by omega))]
  have htail : b.drop 4 = [] := by simp [List.drop_eq_nil_iff, hsz]
  have hb4 : b = b.getD 0 0 :: b.getD 1 0 :: b.getD 2 0 :: b.getD 3 0 :: b.drop 4 := by
    rw [← drop_getD b 3 (by omega), ← drop_getD b 2 (by omega),
      ← drop_getD b 1 (by omega), ← drop_getD b 0 (by omega)]
    exact (List.drop_zero b).symm
  conv_rhs => rw [hb4, hpad]
  rw [htail]

/-- Encode-after-decode for `RawLagRequest`: any 4-byte buffer with
token and stamp is reproduced exactly. -/
theorem rawLagRequest_round (b : List Nat) (hlen : b.length = LAG_REQ_SIZE) :
    (rawLagRequestFromBytes b).map rawLagRequestToBytes = .ok b := by
  have hsz : b.length = 4 := by simpa [LAG_REQ_SIZE] using hlen
  simp only [rawLagRequestFromBytes]
  rw [if_neg (by simp [hsz, LAG_REQ_SIZE])]
  simp only [Except.map, rawLagRequestToBytes]
  have htail : b.drop 4 = [] := by simp [List.drop_eq_nil_iff, hsz]
  rw [show ([b.getD 1 0, b.getD 2 0, b.getD 3 0] : List Nat) =
      b.getD 1 0 :: b.getD 2 0 :: b.getD 3 0 :: b.drop 4 by rw [htail]]
  rw [← drop_getD b 3 (by omega), ← drop_getD b 2 (by omega),
    ← drop_getD b 1 (by omega), ← drop_getD b 0 (by omega)]
  exact congrArg Except.ok (List.drop_zero b)

/-- Encode-after-decode for `RawLagResponse`. -/
theorem rawLagResponse_round (b : List Nat) (hlen : b.length = LAG_RSP_SIZE) :
    (rawLagResponseFromBytes b).map rawLagResponseToBytes = .ok b := by
  have hsz : b.length = 4 := by simpa [LAG_RSP_SIZE] using hlen
  simp only [rawLagResponseFromBytes]
  rw [if_neg (by simp [hsz, LAG_RSP_SIZE])]
  simp only [Except.map, rawLagResponseToBytes]
  have htail : b.drop 4 = [] := by simp [List.drop_eq_nil_iff, hsz]
  rw [show ([b.getD 1 0, b.getD 2 0, b.getD 3 0] : List Nat) =
      b.getD 1 0 :: b.getD 2 0 :: b.getD 3 0 :: b.drop 4 by rw [htail]]
  rw [← drop_getD b 3 (by omega), ← drop_getD b 2 (by omega),
    ← drop_getD b 1 (by omega), ← drop_getD b 0 (by omega)]
  exact congrArg Except.ok (List.drop_zero b)

/-- The pose-request encoder writes the token followed by exactly the
pose byte sequence. -/
lemma rawPoseRequestToBytes_eq (en : Endian) (r : RawPoseRequest) :
    rawPoseRequestToBytes en r = r.token :: playerPoseToBytes en r.player_pose := rfl

/-- The pose-broadcast encoder writes the token, the pose byte sequence,
then the id. -/
lemma rawPoseBroadcastToBytes_eq (en : Endian) (r : RawPoseBroadcast) :
    rawPoseBroadcastToBytes en r =
      r.token :: (playerPoseToBytes en r.player_pose ++ u16ToBytesE en r.id) := rfl

/-- Encode-after-decode for `RawPoseRequest`: any 22-byte buffer of bytes
is reproduced exactly. -/
theorem rawPoseRequest_round (en : Endian) (b : List Nat)
    (hlen : b.length = POSE_REQ_SIZE) (hb : ∀ x ∈ b, x < 256) :
    (rawPoseRequestFromBytes en b).map (rawPoseRequestToBytes en) = .ok b := by
  have hsz : b.length = 22 := by simpa [POSE_REQ_SIZE] using hlen
  have hslen : ((b.drop 1).take 21).length = 21 := by simp [hsz]
  have hsb : ∀ x ∈ (b.drop 1).take 21, x < 256 := fun x hx =>
    hb x (List.mem_of_mem_drop (List.mem_of_mem_take hx))
  have hround := playerPose_round en ((b.drop 1).take 21)
    (by rw [hslen]; decide) hsb
  simp only [rawPoseRequestFromBytes]
  rw [if_neg (by simp [hsz, POSE_REQ_SIZE])]
  cases hP : playerPoseFromBytes en ((b.drop 1).take 21) with
  | error e => rw [hP] at hround; simp [Except.map] at hround
  | ok p =>
    rw [hP] at hround
    simp only [Except.map, Except.ok.injEq] at hround
    simp only [Except.map, rawPoseRequestToBytes_eq, hround]
    rw [List.take_of_length_le (by simp [hsz]), ← drop_getD b 0 (by omega)]
    exact congrArg Except.ok (List.drop_zero b)

/-- Encode-after-decode for `RawPoseBroadcast`: any 24-byte buffer of
bytes is reproduced exactly. -/
theorem rawPoseBroadcast_round (en : Endian) (b : List Nat)
    (hlen : b.length = POSE_BRC_SIZE) (hb : ∀ x ∈ b, x < 256) :
    (rawPoseBroadcastFromBytes en b).map (rawPoseBroadcastToBytes en) = .ok b := by
  have hsz : b.length = 24 := by simpa [POSE_BRC_SIZE] using hlen
  have hlt : ∀ i, i < 24 → b.getD i 0 < 256 := fun i hi =>
    getD_lt_of_forall b hb i (by omega)
  have hslen : ((b.drop 1).take 21).length = 21 := by simp [hsz]
  have hsb : ∀ x ∈ (b.drop 1).take 21, x < 256 := fun x hx =>
    hb x (List.mem_of_mem_drop (List.mem_of_mem_take hx))
  have hround := playerPose_round en ((b.drop 1).take 21)
    (by rw [hslen]; decide) hsb
  simp only [rawPoseBroadcastFromBytes]
  rw [if_neg (by simp [hsz, POSE_BRC_SIZE])]
  cases hP : playerPoseFromBytes en ((b.drop 1).take 21) with
  | error e => rw [hP] at hround; simp [Except.map] at hround
  | ok p =>
    rw [hP] at hround
    simp only [Except.map, Except.ok.injEq] at hround
    simp only [Except.map, rawPoseBroadcastToBytes_eq, hround]
    rw [u16_bytes_round en _ _ (hlt 22 (by omega)) (hlt 23 (by omega))]
    have htail : b.drop 24 = [] := by simp [List.drop_eq_nil_iff, hsz]
    have h22 : b.drop 22 = [b.getD 22 0, b.getD 23 0] := by
      rw [drop_getD b 22 (by omega), drop_getD b 23 (by omega), htail]
    have hsplit : (b.drop 1).take 21 ++ [b.getD 22 0, b.getD 23 0] = b.drop 1 := by
      rw [← h22, show b.drop 22 = (b.drop 1).drop 21 by
          rw [List.drop_drop]]
      exact List.take_append_drop 21 (b.drop 1)
    rw [hsplit, ← drop_getD b 0 (by omega)]
    exact congrArg Except.ok (List.drop_zero b)

/-- Encode-after-decode for `RawJoinBroadcast`: any 56-byte buffer of
bytes is reproduced exactly (pose, id, sprite and raw name field all
reassemble at their original offsets). -/
theorem rawJoinBroadcast_round (en : Endian) (b : List Nat)
    (hlen : b.length = JOIN_BRC_SIZE) (hb : ∀ x ∈ b, x < 256) :
    (rawJoinBroadcastFromBytes en b).map (rawJoinBroadcastToBytes en) = .ok b := by
  have hsz : b.length = 56 := by simpa [JOIN_BRC_SIZE] using hlen
  have hlt : ∀ i, i < 24 → b.getD i 0 < 256 := fun i hi =>
    getD_lt_of_forall b hb i (by omega)
  simp only [rawJoinBroadcastFromBytes]
  rw [if_neg (by simp [hsz, JOIN_BRC_SIZE])]
  simp only [Except.map, rawJoinBroadcastToBytes, List.map_cons, List.map_nil,
    List.flatten_cons, List.flatten_nil, List.append_nil]
  rw [u32_bytes_round en _ _ _ _ (hlt 4 (by omega)) (hlt 5 (by omega))
      (hlt 6 (by omega)) (hlt 7 (by omega)),
    u32_bytes_round en _ _ _ _ (hlt 8 (by omega)) (hlt 9 (by omega))
      (hlt 10 (by omega)) (hlt 11 (by omega)),
    u32_bytes_round en _ _ _ _ (hlt 12 (by omega)) (hlt 13 (by omega))
      (hlt 14 (by omega)) (hlt 15 (by omega)),
    u32_bytes_round en _ _ _ _ (hlt 16 (by omega)) (hlt 17 (by omega))
      (hlt 18 (by omega)) (hlt 19 (by omega)),
    u16_bytes_round en _ _ (hlt 20 (by omega)) (hlt 21 (by omega)),
    u16_bytes_round en _ _ (hlt 22 (by omega)) (hlt 23 (by omega))]
  rw [List.take_of_length_le (by simp [hsz])]
  simp only [List.cons_append, List.nil_append, List.append_assoc]
  rw [← drop_getD b 23 (by omega), ← drop_getD b 22 (by omega),
    ← drop_getD b 21 (by omega), ← drop_getD b 20 (by omega),
    ← drop_getD b 19 (by omega), ← drop_getD b 18 (by omega),
    ← drop_getD b 17 (by omega), ← drop_getD b 16 (by omega),
    ← drop_getD b 15 (by omega), ← drop_getD b 14 (by omega),
    ← drop_getD b 13 (by omega), ← drop_getD b 12 (by omega),
    ← drop_getD b 11 (by omega), ← drop_getD b 10 (by omega),
    ← drop_getD b 9 (by omega), ← drop_getD b 8 (by omega),
    ← drop_getD b 7 (by omega), ← drop_getD b 6 (by omega),
    ← drop_getD b 5 (by omega), ← drop_getD b 4 (by omega),
    ← drop_getD b 3 (by omega), ← drop_getD b 2 (by omega),
    ← drop_getD b 1 (by omega), ← drop_getD b 0 (by omega)]
  exact congrArg Except.ok (List.drop_zero b)

/-- `first_nul` finds nothing in a zero-free buffer. -/
lemma first_nul_of_no_zero (n : List Nat) (h : ∀ x ∈ n, x ≠ 0) :
    first_nul n = none := by
  induction n with
  | nil => rfl
  | cons a t ih =>
    simp only [first_nul, if_neg (h a (by simp)),
      ih (fun x hx => h x (by simp [hx]))]
    rfl

/-- `first_nul` on a zero-free prefix followed by a zero byte reports the
prefix length. -/
lemma first_nul_append_zero (n t : List Nat) (h : ∀ x ∈ n, x ≠ 0) :
    first_nul (n ++ 0 :: t) = some n.length := by
  induction n with
  | nil => simp [first_nul]
  | cons a r ih =>
    have hr := ih (fun x hx => h x (by simp [hx]))
    simp [first_nul, if_neg (h a (by simp)), hr]

/-- `first_nul` on a zero-free name padded with at least one zero byte
reports the name length. -/
lemma first_nul_padded (n : List Nat) (k : Nat) (hk : 0 < k)
    (hz : ∀ x ∈ n, x ≠ 0) :
    first_nul (n ++ List.replicate k 0) = some n.length := by
  cases k with
  | zero => omega
  | succ m => rw [List.replicate_succ]; exact first_nul_append_zero n _ hz

/-- Extracting a zero-free name of length at most 32 out of its padded
32-byte field recovers it exactly (the `unwrap_or(32)` fallback is in
bounds there). -/
lemma padded_name_extract32 (n : List Nat) (h32 : n.length ≤ 32)
    (hz : ∀ x ∈ n, x ≠ 0) :
    (first_nul (n ++ List.replicate (32 - n.length) 0)).getD 32 ≤
        (n ++ List.replicate (32 - n.length) 0).length ∧
    (n ++ List.replicate (32 - n.length) 0).take
        ((first_nul (n ++ List.replicate (32 - n.length) 0)).getD 32) = n := by
  have hplen : (n ++ List.replicate (32 - n.length) 0).length = 32 := by
    simp; omega
  rcases Nat.lt_or_ge n.length 32 with hlt | hge
  · rw [first_nul_padded n _ (by omega) hz]
    exact ⟨by simp [hplen]; omega, by simp [List.take_left n _]⟩
  · have heq : n.length = 32 := by omega
    rw [show 32 - n.length = 0 by omega]
    simp only [List.replicate_zero, List.append_nil]
    rw [first_nul_of_no_zero n hz]
    exact ⟨by simp [hz, heq], by simp [Option.getD, ← heq]⟩

/-- Well-formedness of a `PlayerPose`: every field fits its wire width. -/
def PlayerPoseWF (p : PlayerPose) : Prop :=
  p.animation < 256 ∧ p.frame < 256 ∧ p.action_or_mount < 256 ∧
    p.position.length = 3 ∧ (∀ x ∈ p.position, x < 4294967296) ∧
    p.direction < 4294967296 ∧ p.sprite < 65536

instance (p : PlayerPose) : Decidable (PlayerPoseWF p) := by
  unfold PlayerPoseWF; infer_instance

/-- Decode-after-encode for the clean `JoinResponse`. -/
theorem cleanJoinResponse_round (en : Endian) (c : JoinResponse)
    (hmc : c.max_clients < 256) (hid : c.id < 65536) :
    cleanJoinResponseFromBytes en (cleanJoinResponseToBytes en c) = .ok c := by
  obtain ⟨mc, i⟩ := c
  simp only [JoinResponse.max_clients, JoinResponse.id] at hmc hid
  cases en <;>
    simp [cleanJoinResponseFromBytes, cleanJoinResponseToBytes,
      rawJoinResponseToBytes, joinResponseToRaw, rawJoinResponseFromBytes,
      JOIN_RSP_SIZE, u16ToBytesE, u16FromBytesE, joinResponseFromRaw] <;>
    omega

/-- Decode-after-encode for the clean `ExitBroadcast`, on a little-endian
platform (the decoder is hard-coded little-endian). -/
theorem cleanExitBroadcast_round (c : ExitBroadcast) (hid : c.id < 65536) :
    cleanExitBroadcastFromBytes (cleanExitBroadcastToBytes .little c) = .ok c := by
  obtain ⟨i⟩ := c
  simp only [ExitBroadcast.id] at hid
  simp [cleanExitBroadcastFromBytes, cleanExitBroadcastToBytes,
    rawExitBroadcastToBytes, exitBroadcastToRaw, rawExitBroadcastFromBytes,
    EXIT_BRC_SIZE, u16ToBytesE, u16FromBytesE, exitBroadcastFromRaw]
  omega

/-- Decode-after-encode for the clean `PoseRequest`. -/
theorem cleanPoseRequest_round (en : Endian) (c : PoseRequest)
    (hwf : PlayerPoseWF c.player_pose) :
    cleanPoseRequestFromBytes en (cleanPoseRequestToBytes en c) = .ok c := by
  obtain ⟨⟨a, f, m, pos, d, s⟩⟩ := c
  obtain ⟨ha, hf, hm, hpos, hposlt, hd, hs⟩ := hwf
  simp only [PoseRequest.player_pose, PlayerPose.animation, PlayerPose.frame,
    PlayerPose.action_or_mount, PlayerPose.position, PlayerPose.direction,
    PlayerPose.sprite] at ha hf hm hpos hposlt hd hs
  rcases pos with _ | ⟨p0, _ | ⟨p1, _ | ⟨p2, _ | _⟩⟩⟩ <;> simp at hpos
  have hp0 : p0 < 4294967296 := hposlt p0 (by simp)
  have hp1 : p1 < 4294967296 := hposlt p1 (by simp)
  have hp2 : p2 < 4294967296 := hposlt p2 (by simp)
  cases en <;>
    simp [cleanPoseRequestFromBytes, cleanPoseRequestToBytes,
      rawPoseRequestToBytes, poseRequestToRaw, rawPoseRequestFromBytes,
      POSE_REQ_SIZE, playerPoseFromBytes, PLAYER_POSE_SIZE,
      u32ToBytesE, u32FromBytesE, u16ToBytesE, u16FromBytesE,
      poseRequestFromRaw] <;>
    omega

/-- Decode-after-encode for the clean `PoseBroadcast`. -/
theorem cleanPoseBroadcast_round (en : Endian) (c : PoseBroadcast)
    (hwf : PlayerPoseWF c.player_pose) (hid : c.id < 65536) :
    cleanPoseBroadcastFromBytes en (cleanPoseBroadcastToBytes en c) = .ok c := by
  obtain ⟨⟨a, f, m, pos, d, s⟩, i⟩ := c
  obtain ⟨ha, hf, hm, hpos, hposlt, hd, hs⟩ := hwf
  simp only [PoseBroadcast.player_pose, PoseBroadcast.id, PlayerPose.animation,
    PlayerPose.frame, PlayerPose.action_or_mount, PlayerPose.position,
    PlayerPose.direction, PlayerPose.sprite] at ha hf hm hpos hposlt hd hs hid
  rcases pos with _ | ⟨p0, _ | ⟨p1, _ | ⟨p2, _ | _⟩⟩⟩ <;> simp at hpos
  have hp0 : p0 < 4294967296 := hposlt p0 (by simp)
  have hp1 : p1 < 4294967296 := hposlt p1 (by simp)
  have hp2 : p2 < 4294967296 := hposlt p2 (by simp)
  cases en <;>
    simp [cleanPoseBroadcastFromBytes, cleanPoseBroadcastToBytes,
      rawPoseBroadcastToBytes, poseBroadcastToRaw, rawPoseBroadcastFromBytes,
      POSE_BRC_SIZE, playerPoseFromBytes, PLAYER_POSE_SIZE,
      u32ToBytesE, u32FromBytesE, u16ToBytesE, u16FromBytesE,
      poseBroadcastFromRaw] <;>
    omega

/-- Decode-after-encode for the clean `LagRequest`. -/
theorem cleanLagRequest_round (c : LagRequest) (hst : c.stamp.length = 3) :
    cleanLagRequestFromBytes (cleanLagRequestToBytes c) = .ok c := by
  obtain ⟨st⟩ := c
  rcases st with _ | ⟨s0, _ | ⟨s1, _ | ⟨s2, _ | _⟩⟩⟩ <;> simp at hst
  simp [cleanLagRequestFromBytes, cleanLagRequestToBytes,
    rawLagRequestToBytes, lagRequestToRaw, rawLagRequestFromBytes,
    LAG_REQ_SIZE, lagRequestFromRaw]

/-- Decode-after-encode for the clean `LagResponse`. -/
theorem cleanLagResponse_round (c : LagResponse) (hst : c.stamp.length = 3) :
    cleanLagResponseFromBytes (cleanLagResponseToBytes c) = .ok c := by
  obtain ⟨st⟩ := c
  rcases st with _ | ⟨s0, _ | ⟨s1, _ | ⟨s2, _ | _⟩⟩⟩ <;> simp at hst
  simp [cleanLagResponseFromBytes, cleanLagResponseToBytes,
    rawLagResponseToBytes, lagResponseToRaw, rawLagResponseFromBytes,
    LAG_RSP_SIZE, lagResponseFromRaw]

/-- Decode-after-encode for the clean `JoinRequest`, for zero-free names
shorter than 31 bytes (a 31-byte name makes the raw → clean step panic,
see the `unwrap_or(32)` slice). -/
theorem cleanJoinRequest_round (c : JoinRequest) (hlen : c.name.length ≤ 30)
    (hz : ∀ x ∈ c.name, x ≠ 0) :
    ∃ bs, cleanJoinRequestToBytes c = some bs ∧
      cleanJoinRequestFromBytes bs = some (.ok c) := by
  obtain ⟨n⟩ := c
  simp only [JoinRequest.name] at hlen hz
  have hpadlen : (n ++ List.replicate (31 - n.length) 0).length = 31 := by
    simp; omega
  refine ⟨74 :: (n ++ List.replicate (31 - n.length) 0), ?_, ?_⟩
  · simp [cleanJoinRequestToBytes, joinRequestToRaw, if_pos (by omega : n.length ≤ 31),
      rawJoinRequestToBytes]
  · have hfn : first_nul (n ++ List.replicate (31 - n.length) 0) = some n.length :=
      first_nul_padded n _ (by omega) hz
    have htake : (n ++ List.replicate (31 - n.length) 0).take 31 =
        n ++ List.replicate (31 - n.length) 0 :=
      List.take_of_length_le (by omega)
    simp [cleanJoinRequestFromBytes, rawJoinRequestFromBytes, JOIN_REQ_SIZE,
      hpadlen, htake, joinRequestFromRaw, hfn, if_pos, hpadlen,
      List.take_left n _]
    omega

/-- Decode-after-encode for the clean `JoinBroadcast`, for zero-free names
of at most 32 bytes (the full 32-byte field decodes back thanks to the
in-bounds `unwrap_or(32)` fallback). -/
theorem cleanJoinBroadcast_round (en : Endian) (c : JoinBroadcast)
    (hwf : PlayerPoseWF c.player_pose) (hid : c.id < 65536)
    (hlen : c.name.length ≤ 32) (hz : ∀ x ∈ c.name, x ≠ 0) :
    ∃ bs, cleanJoinBroadcastToBytes en c = some bs ∧
      cleanJoinBroadcastFromBytes en bs = some (.ok c) := by
  obtain ⟨⟨a, f, m, pos, d, s⟩, i, n⟩ := c
  obtain ⟨ha, hf, hm, hpos, hposlt, hd, hs⟩ := hwf
  simp only [JoinBroadcast.player_pose, JoinBroadcast.id, JoinBroadcast.name,
    PlayerPose.animation, PlayerPose.frame, PlayerPose.action_or_mount,
    PlayerPose.position, PlayerPose.direction,
    PlayerPose.sprite] at ha hf hm hpos hposlt hd hs hid hlen hz
  rcases pos with _ | ⟨p0, _ | ⟨p1, _ | ⟨p2, _ | _⟩⟩⟩ <;> simp at hpos
  have hp0 : p0 < 4294967296 := hposlt p0 (by simp)
  have hp1 : p1 < 4294967296 := hposlt p1 (by simp)
  have hp2 : p2 < 4294967296 := hposlt p2 (by simp)
  have hpadlen : (n ++ List.replicate (32 - n.length) 0).length = 32 := by
    simp; omega
  have htake : (n ++ List.replicate (32 - n.length) 0).take 32 =
      n ++ List.replicate (32 - n.length) 0 :=
    List.take_of_length_le (by omega)
  have hpe := padded_name_extract32 n hlen hz
  refine ⟨rawJoinBroadcastToBytes en
    ⟨106, ⟨a, f, m, [p0, p1, p2], d, s⟩, i, n ++ List.replicate (32 - n.length) 0⟩,
    ?_, ?_⟩
  · simp only [cleanJoinBroadcastToBytes, joinBroadcastToRaw, if_pos hlen]
    rfl
  · cases en <;>
      simp [cleanJoinBroadcastFromBytes, rawJoinBroadcastToBytes,
        rawJoinBroadcastFromBytes, JOIN_BRC_SIZE, hpadlen, htake,
        joinBroadcastFromRaw, hpe.1, hpe.2, u32ToBytesE, u32FromBytesE,
        u16ToBytesE, u16FromBytesE] <;>
      omega

/-- A successful clean join-broadcast decode forces a 56-byte frame. -/
lemma cleanJoinBroadcast_ok_length (en : Endian) (data : List Nat)
    (jb : JoinBroadcast)
    (h : cleanJoinBroadcastFromBytes en data = some (.ok jb)) :
    data.length = 56 := by
  by_cases hl : data.length = 56
  · exact hl
  · simp [cleanJoinBroadcastFromBytes, rawJoinBroadcastFromBytes,
      JOIN_BRC_SIZE, hl] at h

/-- A successful clean exit-broadcast decode forces a 4-byte frame. -/
lemma cleanExitBroadcast_ok_length (data : List Nat) (eb : ExitBroadcast)
    (h : cleanExitBroadcastFromBytes data = .ok eb) : data.length = 4 := by
  by_cases hl : data.length = 4
  · exact hl
  · simp [cleanExitBroadcastFromBytes, rawExitBroadcastFromBytes,
      EXIT_BRC_SIZE, hl] at h

/-- A successful clean pose-broadcast decode forces a 24-byte frame. -/
lemma cleanPoseBroadcast_ok_length (en : Endian) (data : List Nat)
    (pb : PoseBroadcast)
    (h : cleanPoseBroadcastFromBytes en data = .ok pb) : data.length = 24 := by
  by_cases hl : data.length = 24
  · exact hl
  · simp [cleanPoseBroadcastFromBytes, rawPoseBroadcastFromBytes,
      POSE_BRC_SIZE, hl] at h

/-- A non-panicking clean talk-broadcast decode forces at least 4 bytes. -/
lemma cleanTalkBroadcast_some_length (en : Endian) (data : List Nat)
    (r : Except PacketParseError TalkBroadcast)
    (h : cleanTalkBroadcastFromBytes en data = some r) : 4 ≤ data.length := by
  by_cases hl : data.length < 4
  · simp [cleanTalkBroadcastFromBytes, rawTalkBroadcastFromBytes, hl] at h
  · omega

/-- Claim C8: for a frame with token `'j'`, `'e'`, `'p'` or `'t'` that
decodes successfully, a failing user callback makes `patch_world` return
exactly that error with the `World` and bot `Player` untouched — the
frame's state mutation is skipped entirely. -/
theorem patchWorld_callback_error_no_mutation (en : Endian)
    (lossy : List Nat → List Nat) (now : Nat)
    (cbJoin : JoinBroadcast → BotResult) (cbExit : ExitBroadcast → BotResult)
    (cbPose : PoseBroadcast → BotResult) (cbTalk : TalkBroadcast → BotResult)
    (data : List Nat) (world : World) (bot : Player) (rep : Bool)
    (e : RuntimeError) :
    (∀ jb, data.getD 0 0 = 106 →
      cleanJoinBroadcastFromBytes en data = some (.ok jb) →
      cbJoin jb = .error e →
      patchWorld en lossy now cbJoin cbExit cbPose cbTalk data world bot rep =
        some (.error e, world, bot)) ∧
    (∀ eb, data.getD 0 0 = 101 →
      cleanExitBroadcastFromBytes data = .ok eb →
      cbExit eb = .error e →
      patchWorld en lossy now cbJoin cbExit cbPose cbTalk data world bot rep =
        some (.error e, world, bot)) ∧
    (∀ pb, data.getD 0 0 = 112 →
      cleanPoseBroadcastFromBytes en data = .ok pb →
      cbPose pb = .error e →
      patchWorld en lossy now cbJoin cbExit cbPose cbTalk data world bot rep =
        some (.error e, world, bot)) ∧
    (∀ tb, data.getD 0 0 = 116 →
      cleanTalkBroadcastFromBytes en data = some (.ok tb) →
      cbTalk tb = .error e →
      patchWorld en lossy now cbJoin cbExit cbPose cbTalk data world bot rep =
        some (.error e, world, bot)) := by
  refine ⟨?_, ?_, ?_, ?_⟩
  · intro jb h0 hdec hcb
    have hlen := cleanJoinBroadcast_ok_length en data jb hdec
    cases data with
    | nil => simp at hlen
    | cons d0 rest =>
      simp only [List.getD_cons_zero] at h0
      subst h0
      simp [patchWorld, hdec, hcb]
  · intro eb h0 hdec hcb
    have hlen := cleanExitBroadcast_ok_length data eb hdec
    cases data with
    | nil => simp at hlen
    | cons d0 rest =>
      simp only [List.getD_cons_zero] at h0
      subst h0
      simp [patchWorld, hdec, hcb]
  · intro pb h0 hdec hcb
    have hlen := cleanPoseBroadcast_ok_length en data pb hdec
    cases data with
    | nil => simp at hlen
    | cons d0 rest =>
      simp only [List.getD_cons_zero] at h0
      subst h0
      simp [patchWorld, hdec, hcb]
  · intro tb h0 hdec hcb
    have hlen := cleanTalkBroadcast_some_length en data _ hdec
    cases data with
    | nil => simp at hlen
    | cons d0 rest =>
      simp only [List.getD_cons_zero] at h0
      subst h0
      simp [patchWorld, hdec, hcb]

/-- `positionIdx` on a list whose existing elements all fail the
predicate, extended with one passing element, finds exactly that last
position. -/
lemma positionIdx_append_singleton (p : Player → Bool) (l : List Player)
    (a : Player) (hl : ∀ c ∈ l, ¬ p c) (ha : p a) :
    positionIdx p (l ++ [a]) = some l.length := by
  induction l with
  | nil => simp [positionIdx, ha]
  | cons c t ih =>
    have ht := ih (fun x hx => hl x (by simp [hx]))
    simp [positionIdx, hl c (by simp), ht]

/-- Removing the just-appended last element returns the original list. -/
lemma eraseIdx_append_singleton (l : List Player) (a : Player) :
    (l ++ [a]).eraseIdx l.length = l := by
  simp [List.eraseIdx_append_of_length_le (Nat.le_refl _)]

/-- The join arm of `patch_world` on a successful decode and callback:
appends exactly one participant carrying the broadcast id and pose. -/
lemma patchWorld_join_ok (en : Endian) (lossy : List Nat → List Nat)
    (now : Nat) (cbJoin : JoinBroadcast → BotResult)
    (cbExit : ExitBroadcast → BotResult) (cbPose : PoseBroadcast → BotResult)
    (cbTalk : TalkBroadcast → BotResult) (data : List Nat) (world : World)
    (bot : Player) (rep : Bool) (jb : JoinBroadcast)
    (h0 : data.getD 0 0 = 106)
    (hdec : cleanJoinBroadcastFromBytes en data = some (.ok jb))
    (hcb : cbJoin jb = .ok ()) :
    patchWorld en lossy now cbJoin cbExit cbPose cbTalk data world bot rep =
      some (.ok (),
        { world with
            clients := world.clients ++
              [{ nickname := processText lossy rep jb.name
                 pose := jb.player_pose
                 id := jb.id }] },
        bot) := by
  have hlen := cleanJoinBroadcast_ok_length en data jb hdec
  cases data with
  | nil => simp at hlen
  | cons d0 rest =>
    simp only [List.getD_cons_zero] at h0
    subst h0
    simp [patchWorld, hdec, hcb]

/-- The exit arm of `patch_world` on a successful decode and callback,
when some participant carries the broadcast id: removes the first such
participant. -/
lemma patchWorld_exit_ok (en : Endian) (lossy : List Nat → List Nat)
    (now : Nat) (cbJoin : JoinBroadcast → BotResult)
    (cbExit : ExitBroadcast → BotResult) (cbPose : PoseBroadcast → BotResult)
    (cbTalk : TalkBroadcast → BotResult) (data : List Nat) (world : World)
    (bot : Player) (rep : Bool) (eb : ExitBroadcast) (idx : Nat)
    (h0 : data.getD 0 0 = 101)
    (hdec : cleanExitBroadcastFromBytes data = .ok eb)
    (hcb : cbExit eb = .ok ())
    (hidx : findClientIdx world.clients eb.id = some idx) :
    patchWorld en lossy now cbJoin cbExit cbPose cbTalk data world bot rep =
      some (.ok (), { world with clients := removeClient world.clients idx },
        bot) := by
  have hlen := cleanExitBroadcast_ok_length data eb hdec
  cases data with
  | nil => simp at hlen
  | cons d0 rest =>
    simp only [List.getD_cons_zero] at h0
    subst h0
    simp [patchWorld, hdec, hcb, hidx]

/-- When `first_nul` finds a zero byte, its index is inside the buffer. -/
lemma first_nul_lt_length (l : List Nat) (k : Nat) (h : first_nul l = some k) :
    k < l.length := by
  induction l generalizing k with
  | nil => simp [first_nul] at h
  | cons a t ih =>
    by_cases ha : a = 0
    · simp [first_nul, ha] at h
      simp only [List.length_cons]
      omega
    · simp only [first_nul, if_neg ha] at h
      cases ht : first_nul t with
      | none => rw [ht] at h; simp at h
      | some m =>
        rw [ht] at h
        simp at h
        have := ih m ht
        simp
        omega

/-- The `unwrap_or(32)` name-slice bound is in bounds on a 32-byte field. -/
lemma first_nul_getD_le32 (l : List Nat) (hl : l.length = 32) :
    (first_nul l).getD 32 ≤ l.length := by
  cases hf : first_nul l with
  | none => simp [hl]
  | some k =>
    have hk := first_nul_lt_length l k hf
    rw [hl] at hk
    simp [hl]
    omega

/-- Claim C9 (amended): starting from a world whose participant list is
free of id `X`, applying a join broadcast for `X` and then an exit
broadcast for `X`, with succeeding callbacks, leaves the participant
list free of `X` and of its original length. -/
theorem patchWorld_join_then_exit (en : Endian) (lossy : List Nat → List Nat)
    (now1 now2 : Nat) (cbJoin : JoinBroadcast → BotResult)
    (cbExit : ExitBroadcast → BotResult) (cbPose : PoseBroadcast → BotResult)
    (cbTalk : TalkBroadcast → BotResult) (world : World) (bot : Player)
    (rep : Bool) (X : Nat) (bj be : List Nat)
    (hX : ∀ c ∈ world.clients, c.id ≠ X)
    (hbjlen : bj.length = 56) (hbj0 : bj.getD 0 0 = 106)
    (hbjid : u16FromBytesE en (bj.getD 20 0) (bj.getD 21 0) = X)
    (hbelen : be.length = 4) (hbe0 : be.getD 0 0 = 101)
    (hbeid : u16FromBytesE .little (be.getD 2 0) (be.getD 3 0) = X)
    (hcbJ : ∀ jb, cbJoin jb = .ok ()) (hcbE : ∀ eb, cbExit eb = .ok ()) :
    ∃ w1 w2 : World,
      patchWorld en lossy now1 cbJoin cbExit cbPose cbTalk bj world bot rep =
        some (.ok (), w1, bot) ∧
      patchWorld en lossy now2 cbJoin cbExit cbPose cbTalk be w1 bot rep =
        some (.ok (), w2, bot) ∧
      (∀ c ∈ w2.clients, c.id ≠ X) ∧
      w2.clients.length = world.clients.length := by
  have hnamelen : ((bj.drop 24).take 32).length = 32 := by
    simp [hbjlen]
  have hguard := first_nul_getD_le32 _ hnamelen
  have hdecj0 : cleanJoinBroadcastFromBytes en bj = some (.ok
      { player_pose :=
          { animation := bj.getD 1 0
            frame := bj.getD 2 0
            action_or_mount := bj.getD 3 0
            position :=
              [u32FromBytesE en (bj.getD 4 0) (bj.getD 5 0) (bj.getD 6 0) (bj.getD 7 0),
               u32FromBytesE en (bj.getD 8 0) (bj.getD 9 0) (bj.getD 10 0) (bj.getD 11 0),
               u32FromBytesE en (bj.getD 12 0) (bj.getD 13 0) (bj.getD 14 0) (bj.getD 15 0)]
            direction := u32FromBytesE en (bj.getD 16 0) (bj.getD 17 0) (bj.getD 18 0) (bj.getD 19 0)
            sprite := u16FromBytesE en (bj.getD 22 0) (bj.getD 23 0) }
        id := X
        name := ((bj.drop 24).take 32).take
          ((first_nul ((bj.drop 24).take 32)).getD 32) }) := by
    have hguard32 : (first_nul ((bj.drop 24).take 32)).getD 32 ≤ 32 := by
      rw [hnamelen] at hguard; exact hguard
    have hbjid2 := hbjid
    rw [List.getD_eq_getElem bj 0 (show (20:Nat) < bj.length by omega),
      List.getD_eq_getElem bj 0 (show (21:Nat) < bj.length by omega)] at hbjid2
    simp [cleanJoinBroadcastFromBytes, rawJoinBroadcastFromBytes,
      JOIN_BRC_SIZE, hbjlen, joinBroadcastFromRaw, hguard32, hbjid2]
  obtain ⟨jb, hdecj, hjbid⟩ : ∃ jb, cleanJoinBroadcastFromBytes en bj =
      some (.ok jb) ∧ jb.id = X := ⟨_, hdecj0, rfl⟩
  have hdece : cleanExitBroadcastFromBytes be = .ok { id := X } := by
    have hbeid2 := hbeid
    rw [List.getD_eq_getElem be 0 (show (2:Nat) < be.length by omega),
      List.getD_eq_getElem be 0 (show (3:Nat) < be.length by omega)] at hbeid2
    simp [cleanExitBroadcastFromBytes, rawExitBroadcastFromBytes,
      EXIT_BRC_SIZE, hbelen, exitBroadcastFromRaw, hbeid2]
  have h1 := patchWorld_join_ok en lossy now1 cbJoin cbExit cbPose cbTalk
    bj world bot rep jb hbj0 hdecj (hcbJ jb)
  have hfind : findClientIdx ({ world with clients := world.clients ++
      [{ nickname := processText lossy rep jb.name
         pose := jb.player_pose
         id := jb.id }] } : World).clients X = some world.clients.length := by
    simp only [findClientIdx]
    exact positionIdx_append_singleton _ world.clients _
      (by intro c hc; simp [hX c hc]) (by simp [hjbid])
  have h2 := patchWorld_exit_ok en lossy now2 cbJoin cbExit cbPose cbTalk
    be _ bot rep { id := X } world.clients.length hbe0 hdece (hcbE _) hfind
  refine ⟨_, _, h1, h2, ?_, ?_⟩
  · intro c hc
    simp only [removeClient, eraseIdx_append_singleton] at hc
    exact hX c hc
  · simp [removeClient, eraseIdx_append_singleton]

/-- Claim C10: `patch_world` panics (`none`) on the empty frame — byte 0
is read unconditionally — and on any `'t'` frame shorter than 4 bytes,
where the talk-broadcast decoder indexes bytes 0–3 unconditionally;
no error value is ever returned for these inputs. -/
theorem patchWorld_short_frame_panics (en : Endian)
    (lossy : List Nat → List Nat) (now : Nat)
    (cbJoin : JoinBroadcast → BotResult) (cbExit : ExitBroadcast → BotResult)
    (cbPose : PoseBroadcast → BotResult) (cbTalk : TalkBroadcast → BotResult)
    (world : World) (bot : Player) (rep : Bool) (a b : Nat) :
    patchWorld en lossy now cbJoin cbExit cbPose cbTalk [] world bot rep =
      none ∧
    patchWorld en lossy now cbJoin cbExit cbPose cbTalk [116] world bot rep =
      none ∧
    patchWorld en lossy now cbJoin cbExit cbPose cbTalk [116, a] world bot rep =
      none ∧
    patchWorld en lossy now cbJoin cbExit cbPose cbTalk [116, a, b] world bot
      rep = none := by
  refine ⟨rfl, ?_, ?_, ?_⟩ <;>
    simp [patchWorld, cleanTalkBroadcastFromBytes, rawTalkBroadcastFromBytes]

/-- Claim C2 evaluation: the talk-broadcast decoder neither fails on a
missing terminator nor trims at the first zero byte — it returns the
whole tail after the id, terminator and padding included. -/
theorem talkBroadcast_decode_untrimmed :
    cleanTalkBroadcastFromBytes .little [116, 1, 5, 0, 65, 0, 0] =
      some (.ok { id := 5, str := [65, 0, 0] }) ∧
    cleanTalkBroadcastFromBytes .little [116, 2, 5, 0, 65, 66] =
      some (.ok { id := 5, str := [65, 66] }) := by
  constructor <;> rfl

/-- Claim C3 evaluation: on a big-endian platform the exit broadcast does
not round-trip, because the decoder reads the id with `from_le_bytes`
while the encoder writes it with `to_ne_bytes`. -/
theorem exitBroadcast_endian_mismatch :
    (rawExitBroadcastFromBytes [101, 0, 0, 1]).map
        (rawExitBroadcastToBytes .big) = .ok [101, 0, 1, 0] ∧
    ([101, 0, 1, 0] : List Nat) ≠ [101, 0, 0, 1] := by
  constructor
  · rfl
  · decide

/-- Claim C4 counterexample: a 23-byte buffer does *not* decode as a
`PlayerPose`; the actual fixed size is `PLAYER_POSE_SIZE` = 21. -/
theorem playerPose_23_bytes_fails :
    playerPoseFromBytes .little (List.replicate 23 0) =
      .error (.SizeMismatch 23 21) := by
  rfl

/-- Claim C4 (amended): `PlayerPose` has a fixed **21**-byte encoding:
every 21-byte buffer round-trips exactly, and every other length is
rejected with a size-mismatch error. -/
theorem playerPose_fixed21 (en : Endian) (b : List Nat) :
    (b.length = 21 → (∀ x ∈ b, x < 256) →
      (playerPoseFromBytes en b).map (playerPoseToBytes en) = .ok b) ∧
    (b.length ≠ 21 →
      playerPoseFromBytes en b = .error (.SizeMismatch b.length 21)) := by
  constructor
  · intro hlen hb
    exact playerPose_round en b (by simpa [PLAYER_POSE_SIZE] using hlen) hb
  · intro hlen
    simp [playerPoseFromBytes, PLAYER_POSE_SIZE, hlen]

/-- Witness for `playerPose_fixed21` at concrete inputs of both shapes. -/
theorem playerPose_fixed21_witness :
    (playerPoseFromBytes .little (List.replicate 21 7)).map
        (playerPoseToBytes .little) = .ok (List.replicate 21 7) ∧
    playerPoseFromBytes .little [1, 2] = .error (.SizeMismatch 2 21) :=
  ⟨(playerPose_fixed21 .little _).1 (by decide) (by decide),
   (playerPose_fixed21 .little _).2 (by decide)⟩

/-- Claim C5 evaluation: `PlayerPose` decoding reports
`SizeMismatch(actual, expected)` — the empty buffer yields
`SizeMismatch(0, 21)`, while every raw packet decoder reports
`(expected, actual)`, e.g. `RawJoinRequest` on the empty buffer yields
`SizeMismatch(32, 0)`. -/
theorem playerPose_sizeMismatch_order_swapped :
    playerPoseFromBytes .little [] = .error (.SizeMismatch 0 21) ∧
    rawJoinRequestFromBytes [] = .error (.SizeMismatch 32 0) := by
  constructor <;> rfl

/-- Claim C6 counterexample: encoding a clean join request with a 32-byte
name, or a clean join broadcast with a 33-byte name, panics (models the
out-of-bounds array write) instead of rejecting or truncating. -/
theorem overlength_name_encode_panics :
    joinRequestToRaw { name := List.replicate 32 65 } = none ∧
    joinBroadcastToRaw
      { player_pose := ⟨0, 0, 0, [0, 0, 0], 0, 0⟩
        id := 0
        name := List.replicate 33 65 } = none := by
  constructor <;> rfl

/-- Claim C6 (amended): clean → raw name encoding succeeds exactly when
the name fits the wire field (31 bytes for the join request, 32 for the
join broadcast); longer names panic rather than being rejected or
truncated. -/
theorem encode_name_length_bound :
    (∀ c : JoinRequest, (joinRequestToRaw c).isSome ↔ c.name.length ≤ 31) ∧
    (∀ c : JoinBroadcast,
      (joinBroadcastToRaw c).isSome ↔ c.name.length ≤ 32) := by
  constructor
  · intro c
    by_cases h : c.name.length ≤ 31 <;> simp [joinRequestToRaw, h]
  · intro c
    by_cases h : c.name.length ≤ 32 <;> simp [joinBroadcastToRaw, h]

/-- Claim C7 evaluation: converting a raw join request whose 31-byte name
field holds no zero byte panics (the `unwrap_or(32)` slice end is out of
bounds on the 31-byte field), while the 32-byte join-broadcast field
yields the entire field as required. -/
theorem joinRequest_name_no_nul_panics :
    joinRequestFromRaw { token := 74, name := List.replicate 31 65 } = none ∧
    joinBroadcastFromRaw
      { token := 106
        player_pose := ⟨0, 0, 0, [0, 0, 0], 0, 0⟩
        id := 9
        name := List.replicate 32 65 } =
      some { player_pose := ⟨0, 0, 0, [0, 0, 0], 0, 0⟩
             id := 9
             name := List.replicate 32 65 } := by
  constructor <;> rfl

/-- Claim C1 counterexample: the clean talk request does not round-trip —
the decoder slices `value[2..l]` with `l` an index into the tail, so
encoding the two-byte message "ab" and decoding yields the empty
message. -/
theorem talkRequest_clean_roundtrip_fails :
    cleanTalkRequestFromBytes (cleanTalkRequestToBytes { str := [97, 98] }) =
      some (.ok { str := [] }) ∧
    ({ str := [] } : TalkRequest) ≠ { str := [97, 98] } := by
  constructor
  · rfl
  · decide

/-- Claim C1 (amended): the round-trip laws that actually hold.
Decode-after-encode holds for the clean join response, pose request,
pose broadcast, lag request and lag response (well-formed fields), for
the exit broadcast on a little-endian platform, and for the join
request / join broadcast with zero-free names that fit (strictly, for
the join request) their field.  Encode-after-decode holds at the *raw*
level for every exact-size buffer of the seven kinds above (the exit
broadcast additionally needs a zero padding byte and little-endian).  At
the clean level encode-after-decode fails (encoding canonicalises the
token), and the talk kinds round-trip incorrectly. -/
theorem clean_roundtrip_laws (en : Endian) :
    (∀ c : JoinResponse, c.max_clients < 256 → c.id < 65536 →
      cleanJoinResponseFromBytes en (cleanJoinResponseToBytes en c) = .ok c) ∧
    (∀ c : PoseRequest, PlayerPoseWF c.player_pose →
      cleanPoseRequestFromBytes en (cleanPoseRequestToBytes en c) = .ok c) ∧
    (∀ c : PoseBroadcast, PlayerPoseWF c.player_pose → c.id < 65536 →
      cleanPoseBroadcastFromBytes en (cleanPoseBroadcastToBytes en c) = .ok c) ∧
    (∀ c : LagRequest, c.stamp.length = 3 →
      cleanLagRequestFromBytes (cleanLagRequestToBytes c) = .ok c) ∧
    (∀ c : LagResponse, c.stamp.length = 3 →
      cleanLagResponseFromBytes (cleanLagResponseToBytes c) = .ok c) ∧
    (∀ c : ExitBroadcast, c.id < 65536 →
      cleanExitBroadcastFromBytes (cleanExitBroadcastToBytes .little c) = .ok c) ∧
    (∀ c : JoinRequest, c.name.length ≤ 30 → (∀ x ∈ c.name, x ≠ 0) →
      ∃ bs, cleanJoinRequestToBytes c = some bs ∧
        cleanJoinRequestFromBytes bs = some (.ok c)) ∧
    (∀ c : JoinBroadcast, PlayerPoseWF c.player_pose → c.id < 65536 →
      c.name.length ≤ 32 → (∀ x ∈ c.name, x ≠ 0) →
      ∃ bs, cleanJoinBroadcastToBytes en c = some bs ∧
        cleanJoinBroadcastFromBytes en bs = some (.ok c)) ∧
    (∀ b : List Nat, b.length = 32 →
      (rawJoinRequestFromBytes b).map rawJoinRequestToBytes = .ok b) ∧
    (∀ b : List Nat, b.length = 4 → (∀ x ∈ b, x < 256) →
      (rawJoinResponseFromBytes en b).map (rawJoinResponseToBytes en) = .ok b) ∧
    (∀ b : List Nat, b.length = 56 → (∀ x ∈ b, x < 256) →
      (rawJoinBroadcastFromBytes en b).map (rawJoinBroadcastToBytes en) = .ok b) ∧
    (∀ b : List Nat, b.length = 22 → (∀ x ∈ b, x < 256) →
      (rawPoseRequestFromBytes en b).map (rawPoseRequestToBytes en) = .ok b) ∧
    (∀ b : List Nat, b.length = 24 → (∀ x ∈ b, x < 256) →
      (rawPoseBroadcastFromBytes en b).map (rawPoseBroadcastToBytes en) = .ok b) ∧
    (∀ b : List Nat, b.length = 4 →
      (rawLagRequestFromBytes b).map rawLagRequestToBytes = .ok b) ∧
    (∀ b : List Nat, b.length = 4 →
      (rawLagResponseFromBytes b).map rawLagResponseToBytes = .ok b) ∧
    (∀ b : List Nat, b.length = 4 → (∀ x ∈ b, x < 256) → b.getD 1 0 = 0 →
      (rawExitBroadcastFromBytes b).map (rawExitBroadcastToBytes .little) =
        .ok b) ∧
    (cleanTalkRequestFromBytes (cleanTalkRequestToBytes { str := [97, 98] }) =
      some (.ok { str := [] })) ∧
    (cleanTalkBroadcastFromBytes en
        (cleanTalkBroadcastToBytes en { id := 7, str := [97] }) =
      some (.ok { id := 7, str := [97, 0, 0] })) ∧
    (cleanJoinResponseFromBytes en [0, 0, 0, 0] =
      .ok { max_clients := 0, id := 0 }) ∧
    (cleanJoinResponseToBytes en { max_clients := 0, id := 0 } =
      [106, 0, 0, 0]) := by
  refine ⟨fun c h1 h2 => cleanJoinResponse_round en c h1 h2,
    fun c h => cleanPoseRequest_round en c h,
    fun c h1 h2 => cleanPoseBroadcast_round en c h1 h2,
    fun c h => cleanLagRequest_round c h,
    fun c h => cleanLagResponse_round c h,
    fun c h => cleanExitBroadcast_round c h,
    fun c h1 h2 => cleanJoinRequest_round c h1 h2,
    fun c h1 h2 h3 h4 => cleanJoinBroadcast_round en c h1 h2 h3 h4,
    fun b h => rawJoinRequest_round b (by rw [h]; decide),
    fun b h hb => rawJoinResponse_round en b (by rw [h]; decide) hb,
    fun b h hb => rawJoinBroadcast_round en b (by rw [h]; decide) hb,
    fun b h hb => rawPoseRequest_round en b (by rw [h]; decide) hb,
    fun b h hb => rawPoseBroadcast_round en b (by rw [h]; decide) hb,
    fun b h => rawLagRequest_round b (by rw [h]; decide),
    fun b h => rawLagResponse_round b (by rw [h]; decide),
    fun b h hb hp => rawExitBroadcast_round b (by rw [h]; decide) hb hp,
    ?_, ?_, ?_, ?_⟩ <;> cases en <;> rfl

/-- Witness for `clean_roundtrip_laws` at a concrete join response. -/
theorem clean_roundtrip_laws_witness :
    cleanJoinResponseFromBytes .little
        (cleanJoinResponseToBytes .little { max_clients := 10, id := 5 }) =
      .ok { max_clients := 10, id := 5 } :=
  (clean_roundtrip_laws .little).1 { max_clients := 10, id := 5 }
    (by decide) (by decide)

/-- Witness for `patchWorld_callback_error_no_mutation`: a failing join
callback on a concrete join-broadcast frame returns its error with the
world and bot unchanged. -/
theorem patchWorld_callback_error_witness :
    patchWorld .little (fun s => s) 0 (fun _ => .error { what := "cb" })
      (fun _ => .ok ()) (fun _ => .ok ()) (fun _ => .ok ())
      (106 :: (List.replicate 19 0 ++ [5, 0] ++ List.replicate 34 0))
      { max_clients := 4, clients := [], messages := [], lag := [0, 0, 0] }
      { nickname := [], pose := ⟨0, 0, 0, [0, 0, 0], 0, 0⟩, id := 1 } false =
      some (.error { what := "cb" },
        { max_clients := 4, clients := [], messages := [], lag := [0, 0, 0] },
        { nickname := [], pose := ⟨0, 0, 0, [0, 0, 0], 0, 0⟩, id := 1 }) :=
  (patchWorld_callback_error_no_mutation .little (fun s => s) 0
    (fun _ => .error { what := "cb" }) (fun _ => .ok ()) (fun _ => .ok ())
    (fun _ => .ok ())
    (106 :: (List.replicate 19 0 ++ [5, 0] ++ List.replicate 34 0))
    { max_clients := 4, clients := [], messages := [], lag := [0, 0, 0] }
    { nickname := [], pose := ⟨0, 0, 0, [0, 0, 0], 0, 0⟩, id := 1 } false
    { what := "cb" }).1
    { player_pose := ⟨0, 0, 0, [0, 0, 0], 0, 0⟩, id := 5, name := [] }
    (by rfl) (by rfl) rfl

/-- Witness for `patchWorld_join_then_exit` on a concrete world that does
not yet contain id 5. -/
theorem patchWorld_join_then_exit_witness :
    ∃ w1 w2 : World,
      patchWorld .little (fun s => s) 0 (fun _ => .ok ()) (fun _ => .ok ())
        (fun _ => .ok ()) (fun _ => .ok ())
        (106 :: (List.replicate 19 0 ++ [5, 0] ++ List.replicate 34 0))
        { max_clients := 4
          clients := [{ nickname := [], pose := ⟨0, 0, 0, [0, 0, 0], 0, 0⟩, id := 3 }]
          messages := [], lag := [0, 0, 0] }
        { nickname := [], pose := ⟨0, 0, 0, [0, 0, 0], 0, 0⟩, id := 1 } false =
        some (.ok (), w1,
          { nickname := [], pose := ⟨0, 0, 0, [0, 0, 0], 0, 0⟩, id := 1 }) ∧
      patchWorld .little (fun s => s) 0 (fun _ => .ok ()) (fun _ => .ok ())
        (fun _ => .ok ()) (fun _ => .ok ()) [101, 0, 5, 0] w1
        { nickname := [], pose := ⟨0, 0, 0, [0, 0, 0], 0, 0⟩, id := 1 } false =
        some (.ok (), w2,
          { nickname := [], pose := ⟨0, 0, 0, [0, 0, 0], 0, 0⟩, id := 1 }) ∧
      (∀ c ∈ w2.clients, c.id ≠ 5) ∧
      w2.clients.length = 1 :=
  patchWorld_join_then_exit .little (fun s => s) 0 0 (fun _ => .ok ())
    (fun _ => .ok ()) (fun _ => .ok ()) (fun _ => .ok ())
    { max_clients := 4
      clients := [{ nickname := [], pose := ⟨0, 0, 0, [0, 0, 0], 0, 0⟩, id := 3 }]
      messages := [], lag := [0, 0, 0] }
    { nickname := [], pose := ⟨0, 0, 0, [0, 0, 0], 0, 0⟩, id := 1 } false 5
    (106 :: (List.replicate 19 0 ++ [5, 0] ++ List.replicate 34 0))
    [101, 0, 5, 0] (by decide) (by decide) (by rfl) (by decide) (by decide)
    (by rfl) (by decide) (fun _ => rfl) (fun _ => rfl)

/-- Claim C9 counterexample: if the world already contains a participant
with id 5, a join broadcast for id 5 followed by an exit broadcast for
id 5 (succeeding callbacks) leaves a participant with id 5 in the list —
the exit removes the *first* matching entry, the pre-existing one. -/
theorem patchWorld_join_exit_duplicate_id :
    patchWorld .little (fun s => s) 0 (fun _ => .ok ()) (fun _ => .ok ())
      (fun _ => .ok ()) (fun _ => .ok ())
      (106 :: (List.replicate 19 0 ++ [5, 0] ++ List.replicate 34 0))
      { max_clients := 4
        clients := [{ nickname := [], pose := ⟨0, 0, 0, [0, 0, 0], 0, 0⟩, id := 5 }]
        messages := [], lag := [0, 0, 0] }
      { nickname := [], pose := ⟨0, 0, 0, [0, 0, 0], 0, 0⟩, id := 1 } false =
      some (.ok (),
        { max_clients := 4
          clients := [{ nickname := [], pose := ⟨0, 0, 0, [0, 0, 0], 0, 0⟩, id := 5 },
            { nickname := [], pose := ⟨0, 0, 0, [0, 0, 0], 0, 0⟩, id := 5 }]
          messages := [], lag := [0, 0, 0] },
        { nickname := [], pose := ⟨0, 0, 0, [0, 0, 0], 0, 0⟩, id := 1 }) ∧
    patchWorld .little (fun s => s) 0 (fun _ => .ok ()) (fun _ => .ok ())
      (fun _ => .ok ()) (fun _ => .ok ()) [101, 0, 5, 0]
      { max_clients := 4
        clients := [{ nickname := [], pose := ⟨0, 0, 0, [0, 0, 0], 0, 0⟩, id := 5 },
          { nickname := [], pose := ⟨0, 0, 0, [0, 0, 0], 0, 0⟩, id := 5 }]
        messages := [], lag := [0, 0, 0] }
      { nickname := [], pose := ⟨0, 0, 0, [0, 0, 0], 0, 0⟩, id := 1 } false =
      some (.ok (),
        { max_clients := 4
          clients := [{ nickname := [], pose := ⟨0, 0, 0, [0, 0, 0], 0, 0⟩, id := 5 }]
          messages := [], lag := [0, 0, 0] },
        { nickname := [], pose := ⟨0, 0, 0, [0, 0, 0], 0, 0⟩, id := 1 }) ∧
    ¬ (∀ c ∈ ([⟨[], ⟨0, 0, 0, [0, 0, 0], 0, 0⟩, 5⟩] : List Player),
        Player.id c ≠ 5) := by
  refine ⟨rfl, rfl, ?_⟩
  decide

end Asciicker
